import Mathlib

/-!
Shallow embedding of the relay-message stash service (Go, package main:
relay_messages.go and the main entry point) and proofs about its behavior.

Modelling conventions:
* Go machine integers are modelled as Nat (all lengths and counts here are
  non-negative and far from overflow).
* The PostgreSQL relay_messages table is modelled as a list of MessageRecord
  in insertion order; a successful INSERT appends one record.  The
  server-assigned columns (message_id, created, status_id) are defaults set
  by the database, not by this code, and are not part of the model.
* Calls into external libraries (encoding/json unmarshalling, the database
  driver's query/scan results) are modelled by their outcomes: a field or
  parameter of type Except/Option holds the result the library call produced
  for the bytes at hand.  The code under proof is everything the repository
  does with those outcomes.
* log.Printf calls are modelled by accumulating the formatted lines in a
  List String component of the result.
* Byte length of a Go string (len) is its UTF-8 byte size.
-/

set_option autoImplicit false

namespace RelayStash

/-- Go: len(s) for a string is its byte length. -/
def goLen (s : String) : Nat := s.utf8ByteSize

/-- const MaxMessageSize int = 8 * 1024 -/
def MaxMessageSize : Nat := 8 * 1024

/-- gosparkpost events.RelayMessage.Content: the fields read by this
repository (msg.Content.Email, msg.Content.Subject, msg.Content.Base64). -/
structure Content where
  Email : String
  Subject : String
  Base64 : Bool
deriving DecidableEq, Repr

/-- gosparkpost events.RelayMessage: the fields read by this repository
(msg.From, msg.To, msg.WebhookID, msg.Content). -/
structure RelayMessage where
  Content : Content
  From : String
  To : String
  WebhookID : String
deriving DecidableEq, Repr

/-- One row of the relay_messages table, with the columns this code inserts
(webhook_id, smtp_from, smtp_to, subject, rfc822, is_base64).  The
database-assigned columns message_id, created and status_id are omitted. -/
structure MessageRecord where
  webhook_id : String
  smtp_from : String
  smtp_to : String
  subject : String
  rfc822 : String
  is_base64 : Bool
deriving DecidableEq, Repr

/-- Failure of StoreEvent.  The source returns fmt.Errorf strings; the
size-check failure ("StoreEvent (size): ignoring message from %s, size %d")
is modelled structurally, carrying the same data the format string carries.
The DB INSERT itself is modelled as succeeding (StorageError would carry an
external driver error). -/
inductive StoreErr where
  | MessageTooLarge (From : String) (size : Nat)
deriving DecidableEq, Repr

/-- func (p *RelayMsgParser) StoreEvent(msg *events.RelayMessage) error
Returns the table state after the call paired with the error result:
if len(msg.Content.Email) >= MaxMessageSize the INSERT is not executed and
an error is returned; otherwise one row is inserted. -/
def StoreEvent (msg : RelayMessage) (st : List MessageRecord) :
    List MessageRecord × Option StoreErr :=
  if MaxMessageSize ≤ goLen msg.Content.Email then
    (st, some (.MessageTooLarge msg.From (goLen msg.Content.Email)))
  else
    (st ++ [{ webhook_id := msg.WebhookID, smtp_from := msg.From,
              smtp_to := msg.To, subject := msg.Content.Subject,
              rfc822 := msg.Content.Email, is_base64 := msg.Content.Base64 }],
     none)

/-- RE2 character class \s = [\t\n\f\r ]. -/
def isRE2Space (c : Char) : Bool :=
  c = '\t' || c = '\n' || c = '\x0c' || c = '\r' || c = ' '

/-- Consume the longest run of \s characters (the \s* pieces of the regex). -/
def dropWS : List Char → List Char
  | [] => []
  | c :: cs => if isRE2Space c then dropWS cs else c :: cs

/-- Consume an exact literal character sequence; none if the input does not
start with it. -/
def eatLit : List Char → List Char → Option (List Char)
  | [], s => some s
  | _ :: _, [] => none
  | l :: ls, c :: cs => if c = l then eatLit ls cs else none

/-- var relayMsg = regexp.MustCompile of
  caret \s* lbrace \s* "msys" \s* : \s* lbrace \s* "relay_message" \s* :
as an anchored matcher: true iff relayMsg.FindStringIndex(s) is non-empty
(the pattern is anchored at the start, so a match exists iff it matches at
position 0). -/
def relayMsgMatch (s : String) : Bool :=
  (do
    let r := dropWS s.data
    let r ← eatLit ['\x7b'] r
    let r := dropWS r
    let r ← eatLit "\"msys\"".data r
    let r := dropWS r
    let r ← eatLit [':'] r
    let r := dropWS r
    let r ← eatLit ['\x7b'] r
    let r := dropWS r
    let r ← eatLit "\"relay_message\"".data r
    let r := dropWS r
    let r ← eatLit [':'] r
    pure r).isSome

/-- The parse of one array element into
map[string]map[string]events.RelayMessage, modelled as an association list
with the (unique) keys of the JSON object in order.  Except.error is a
json.Unmarshal failure. -/
abbrev Blob := List (String × List (String × RelayMessage))

/-- Go map lookup m[k] on the association-list model. -/
def lookupKey {α : Type} (l : List (String × α)) (k : String) : Option α :=
  (l.find? (fun p => p.1 == k)).map (fun p => p.2)

/-- One element of the events array handed to ParseEvent: the raw bytes of
the element (json.RawMessage preserves them verbatim) together with the
outcome of json.Unmarshal of those bytes into
map[string]map[string]events.RelayMessage. -/
structure RawEvent where
  text : String
  decoded : Except Unit Blob

/-- Result of a processing step: table state, error returned, log lines. -/
abbrev PRes := List MessageRecord × Option StoreErr × List String

/-- func (p *RelayMsgParser) ParseEvent(j *json.RawMessage) error
A nil pointer (none) returns immediately.  Otherwise the relayMsg regex is
probed on the raw bytes; non-matching, undecodable, or key-missing elements
are logged and skipped with a nil error; a decoded relay_message is handed
to StoreEvent and its error (if any) is returned. -/
def ParseEvent (j : Option RawEvent) (st : List MessageRecord) : PRes :=
  match j with
  | none => (st, none, [])
  | some ev =>
    if relayMsgMatch ev.text then
      match ev.decoded with
      | .error _ => (st, none, ["ParseEvent failed to parse JSON:\n" ++ ev.text])
      | .ok blob =>
        match lookupKey blob "msys" with
        | none => (st, none, ["ParseEvent ignored event with no \"msys\" key: " ++ ev.text])
        | some msys =>
          match lookupKey msys "relay_message" with
          | none => (st, none, ["ParseEvent ignored event with no \"relay_message\" key: " ++ ev.text])
          | some msg =>
            let logLine := msg.From ++ " => " ++ msg.To ++ " (" ++ msg.WebhookID ++ ")"
            let r := StoreEvent msg st
            (r.1, r.2, [logLine])
    else
      (st, none, ["ParseEvent ignored event: " ++ ev.text])

/-- One storage.Request handed to ProcessRequests: the raw body bytes
(req.Data) together with the outcome of
json.Unmarshal([]byte(req.Data), &events) for events of type
[]*json.RawMessage.  A JSON null element unmarshals to a nil pointer
(none); Except.error models an unmarshal failure. -/
structure Request where
  Data : String
  parsed : Except Unit (List (Option RawEvent))

/-- The inner loop of ProcessRequests over the events of one raw request:
each event goes through ParseEvent; a non-nil error from ParseEvent is
returned immediately (the remaining events of this request are not
processed). -/
def processEvents : List (Option RawEvent) → List MessageRecord → PRes
  | [], st => (st, none, [])
  | e :: es, st =>
    match ParseEvent e st with
    | (st', some err, lg) => (st', some err, lg)
    | (st', none, lg) =>
      let r := processEvents es st'
      (r.1, r.2.1, lg ++ r.2.2)

/-- The loop of ProcessRequests over the raw requests, carrying the index i
of the current request (used only in the log line).  A request whose body
does not unmarshal as a JSON array is logged and skipped; a request whose
event processing returns an error makes ProcessRequests return that error
immediately (the remaining requests are not processed in this run). -/
def processReqsFrom : Nat → List Request → List MessageRecord → PRes
  | _, [], st => (st, none, [])
  | i, r :: rs, st =>
    match r.parsed with
    | .error _ =>
      let rest := processReqsFrom (i + 1) rs st
      (rest.1, rest.2.1,
       ("ProcessRequests failed to parse JSON:\n" ++ r.Data) :: rest.2.2)
    | .ok events =>
      let lg0 := "ProcessRequests found " ++ toString events.length ++
                 " events from request " ++ toString i
      match processEvents events st with
      | (st', some err, lg) => (st', some err, lg0 :: lg)
      | (st', none, lg) =>
        let rest := processReqsFrom (i + 1) rs st'
        (rest.1, rest.2.1, lg0 :: (lg ++ rest.2.2))

/-- func (p *RelayMsgParser) ProcessRequests(reqs []storage.Request) error -/
def ProcessRequests (reqs : List Request) (st : List MessageRecord) : PRes :=
  let r := processReqsFrom 0 reqs st
  (r.1, r.2.1,
   ("ProcessRequests called with " ++ toString reqs.length ++ " requests") :: r.2.2)

/-- Table state after a processing step. -/
def prState (p : PRes) : List MessageRecord := p.1

/-- Error result of a processing step (the Go error return value). -/
def prErr (p : PRes) : Option StoreErr := p.2.1

/-- Log lines of a processing step. -/
def prLog (p : PRes) : List String := p.2.2

/-! ## Summary handler -/

/-- type SummaryResponse struct, with its JSON field names subject/count. -/
structure SummaryResponse where
  Subject : String
  Count : Nat
deriving DecidableEq, Repr

/-- go-cache: Set uses a 1 second default TTL (cache.New(1*time.Second, ...)).
Time is modelled in seconds. -/
def defaultTTL : Nat := 1

/-- The go-cache instance owned by the handler closure: a map from key to
(stored bytes, expiration time).  Modelled as an association list whose
lookup takes the first matching entry; Set replaces the entry for its key. -/
structure Cache where
  entries : List (String × String × Nat)
deriving DecidableEq, Repr

/-- go-cache c.Get(k) at time now: found only if an entry exists and is not
expired (expired means now is strictly past the stored expiration). -/
def cacheGet (c : Cache) (now : Nat) (k : String) : Option String :=
  match c.entries.find? (fun e => e.1 == k) with
  | none => none
  | some (_, v, exp) => if now ≤ exp then some v else none

/-- go-cache c.Set(k, v, cache.DefaultExpiration) at time now: stores v
under k with expiration now + defaultTTL, replacing any previous entry. -/
def cacheSet (c : Cache) (now : Nat) (k : String) (v : String) : Cache :=
  ⟨(k, v, now + defaultTTL) :: c.entries.filter (fun e => e.1 != k)⟩

/-- Outcome of p.Dbh.Query and the subsequent row iteration, as produced by
the database driver: either the Query call itself fails, or it yields a
sequence of rows (each row either scans into (subject, count) or fails to
scan) followed by the final rows.Err() result (true = error). -/
inductive RowsOutcome where
  | queryErr
  | rows (scans : List (Except Unit SummaryResponse)) (finalErr : Bool)

/-- The handler's scan loop over the yielded rows: appends each scanned
SummaryResponse to res["results"] in order, returning none as soon as one
Scan fails (the handler returns a 500 at that point). -/
def scanRows : List (Except Unit SummaryResponse) → Option (List SummaryResponse)
  | [] => some []
  | .error _ :: _ => none
  | .ok s :: rest =>
    match scanRows rest with
    | none => none
    | some l => some (s :: l)

/-- encoding/json string encoding, for strings whose characters need no
escaping beyond quote and backslash (Go additionally escapes control
characters and <, >, & — not needed for the values in this development). -/
def encChar (c : Char) : String :=
  if c = '"' then "\\\"" else if c = '\\' then "\\\\" else String.singleton c

/-- JSON-quote a string. -/
def encString (s : String) : String :=
  "\"" ++ String.join (s.data.map encChar) ++ "\""

/-- json.Marshal of one SummaryResponse. -/
def encSummary (s : SummaryResponse) : String :=
  "\x7b\"subject\":" ++ encString s.Subject ++ ",\"count\":" ++ toString s.Count ++ "\x7d"

/-- json.Marshal(res) for res of type map[string][]SummaryResponse as built
by the scan loop: when no row was scanned the map was never written to and
marshals as an empty object; otherwise it has the single key "results". -/
def marshalRes : List SummaryResponse → String
  | [] => "\x7b\x7d"
  | l => "\x7b\"results\":[" ++ String.intercalate "," (l.map encSummary) ++ "]\x7d"

/-- The handler's observable outcome: HTTP status, response body, the cache
after the call, and whether a database query was issued. -/
structure HandlerResult where
  status : Nat
  body : String
  cache : Cache
  queried : Bool
deriving DecidableEq, Repr

/-- http.Error(w, msg, http.StatusInternalServerError): a 500 whose body is
the message plus a newline; reached only after the query was issued. -/
def httpError (msg : String) (c : Cache) : HandlerResult :=
  ⟨500, msg ++ "\n", c, true⟩

/-- func (p *RelayMsgParser) SummaryHandler() http.HandlerFunc — the body of
one request for :localpart = localpart at time now, given the cache state c
and the outcome db the database produces if queried.  A cache hit writes the
stored bytes back verbatim with no query; otherwise the aggregate query runs
and errors map to 500s, while success serializes, caches and writes the
envelope with the implicit 200 status. -/
def SummaryHandler (c : Cache) (now : Nat) (localpart : String)
    (db : RowsOutcome) : HandlerResult :=
  match cacheGet c now localpart with
  | some jsonBytes => ⟨200, jsonBytes, c, false⟩
  | none =>
    match db with
    | .queryErr => httpError "Database error" c
    | .rows scans finalErr =>
      match scanRows scans with
      | none => httpError "Database error" c
      | some results =>
        if finalErr then httpError "Database error" c
        else
          let jsonBytes := marshalRes results
          ⟨200, jsonBytes, cacheSet c now localpart jsonBytes, true⟩

/-- True when the modelled database interaction contains a failure the
handler must surface: a failed Query, a failed row Scan, or a final
rows.Err(). -/
def dbFails : RowsOutcome → Bool
  | .queryErr => true
  | .rows scans finalErr => scans.any (fun s => s.isOk == false) || finalErr

/-! ## Concrete fixtures

Concrete inputs used by the witness and counterexample theorems below.  Each
RawEvent's decoded field is the value encoding/json would produce for the
event's text, and each Request's parsed field is the value it would produce
for the request's Data. -/

/-- An 8192-byte message body: exactly at the MaxMessageSize cap. -/
def bigEmail : String := String.mk (List.replicate MaxMessageSize 'a')

/-- A small relay message (body well under the cap). -/
def okMsg : RelayMessage :=
  { Content := { Email := "hello", Subject := "Hi", Base64 := false },
    From := "a@x.com", To := "bob@y.com", WebhookID := "w1" }

/-- The row StoreEvent inserts for okMsg. -/
def okRecord : MessageRecord :=
  { webhook_id := "w1", smtp_from := "a@x.com", smtp_to := "bob@y.com",
    subject := "Hi", rfc822 := "hello", is_base64 := false }

/-- Serialization of okMsg in the webhook's event-wrapper shape. -/
def okText : String :=
  "\x7b\"msys\":\x7b\"relay_message\":\x7b\"webhook_id\":\"w1\",\"from\":\"a@x.com\",\"to\":\"bob@y.com\",\"content\":\x7b\"subject\":\"Hi\",\"email\":\"hello\",\"is_base64\":false\x7d\x7d\x7d\x7d"

/-- okText as an array element, with its decode result. -/
def okEvent : RawEvent := ⟨okText, .ok [("msys", [("relay_message", okMsg)])]⟩

/-- A relay message whose body is 8192 bytes (at the cap, so oversized). -/
def bigMsg : RelayMessage :=
  { Content := { Email := bigEmail, Subject := "Hi", Base64 := false },
    From := "a@x.com", To := "bob@y.com", WebhookID := "w2" }

/-- Serialization of bigMsg in the event-wrapper shape. -/
def bigText : String :=
  "\x7b\"msys\":\x7b\"relay_message\":\x7b\"webhook_id\":\"w2\",\"from\":\"a@x.com\",\"to\":\"bob@y.com\",\"content\":\x7b\"subject\":\"Hi\",\"email\":\"" ++
  bigEmail ++ "\",\"is_base64\":false\x7d\x7d\x7d\x7d"

/-- bigText as an array element, with its decode result. -/
def bigEvent : RawEvent := ⟨bigText, .ok [("msys", [("relay_message", bigMsg)])]⟩

/-- The same logical payload as okEvent but serialized with another object
key before "msys": it decodes to an object that does contain
msys.relay_message, yet its text does not start with the "msys" key. -/
def zzzText : String :=
  "\x7b\"zzz\":\x7b\x7d,\"msys\":\x7b\"relay_message\":\x7b\"webhook_id\":\"w1\",\"from\":\"a@x.com\",\"to\":\"bob@y.com\",\"content\":\x7b\"subject\":\"Hi\",\"email\":\"hello\",\"is_base64\":false\x7d\x7d\x7d\x7d"

/-- zzzText as an array element, with its decode result. -/
def zzzEvent : RawEvent :=
  ⟨zzzText, .ok [("zzz", []), ("msys", [("relay_message", okMsg)])]⟩

/-- An array element of a different event type. -/
def otherEvent : RawEvent := ⟨"\x7b\"other_event\": \x7b\x7d\x7d", .ok [("other_event", [])]⟩

/-- A raw request containing exactly the oversized event. -/
def reqBig : Request := ⟨"[" ++ bigText ++ "]", .ok [some bigEvent]⟩

/-- A raw request containing exactly the small storable event. -/
def reqOk : Request := ⟨"[" ++ okText ++ "]", .ok [some okEvent]⟩

/-- A raw request whose body is not a JSON array. -/
def reqBad : Request := ⟨"bogus", .error ()⟩

/-- A raw request containing exactly one non-relay-message element. -/
def reqOther : Request := ⟨"[\x7b\"other_event\": \x7b\x7d\x7d]", .ok [some otherEvent]⟩

/-- "None of the array elements matches the relay-message shape": every
non-null element's raw text fails the relayMsg regex probe. -/
def noRelayShape (events : List (Option RawEvent)) : Bool :=
  events.all (fun ev =>
    match ev with
    | none => true
    | some x => !relayMsgMatch x.text)

/-! ## Helper lemmas -/

theorem utf8go_replicate_a (n : Nat) :
    String.utf8ByteSize.go (List.replicate n 'a') = n := by
  induction n with
  | zero => rfl
  | succ n ih =>
    rw [List.replicate_succ]
    show String.utf8ByteSize.go (List.replicate n 'a') + Char.utf8Size 'a' = n + 1
    rw [ih, show Char.utf8Size 'a' = 1 from rfl]

theorem goLen_bigEmail : goLen bigEmail = MaxMessageSize :=
  utf8go_replicate_a MaxMessageSize

theorem storeEvent_bigMsg (st : List MessageRecord) :
    StoreEvent bigMsg st =
      (st, some (.MessageTooLarge "a@x.com" MaxMessageSize)) := by
  have h : goLen bigMsg.Content.Email = MaxMessageSize := goLen_bigEmail
  unfold StoreEvent
  rw [h, if_pos (Nat.le_refl MaxMessageSize)]
  rfl

theorem parseEvent_bigEvent (st : List MessageRecord) :
    ParseEvent (some bigEvent) st =
      (st, some (.MessageTooLarge "a@x.com" MaxMessageSize),
       ["a@x.com => bob@y.com (w2)"]) := by
  have hm : relayMsgMatch bigText = true := by decide
  have hs := storeEvent_bigMsg st
  simp [ParseEvent, hm, bigEvent, lookupKey, hs]
  rfl

/-! ## Claims -/

/-- C10: ParseEvent applied to a nil event pointer returns success
immediately: the table is unchanged, the error is nil, and no log line is
produced (the pointer is never dereferenced). -/
theorem c10_nil_event_noop (st : List MessageRecord) :
    ParseEvent none st = (st, none, []) := rfl

/-- C3: for every relay-message event whose body is strictly shorter than
8192 bytes, StoreEvent succeeds (nil error) and appends exactly one
MessageRecord whose webhook_id, smtp_from, smtp_to, subject, rfc822 and
is_base64 fields equal the corresponding fields of the input event. -/
theorem c3_small_event_inserted (msg : RelayMessage) (st : List MessageRecord)
    (h : goLen msg.Content.Email < MaxMessageSize) :
    StoreEvent msg st =
      (st ++ [{ webhook_id := msg.WebhookID, smtp_from := msg.From,
                smtp_to := msg.To, subject := msg.Content.Subject,
                rfc822 := msg.Content.Email, is_base64 := msg.Content.Base64 }],
       none) := by
  unfold StoreEvent
  rw [if_neg (Nat.not_le.mpr h)]

/-- Witness for C3 at a concrete small event. -/
theorem c3_small_event_inserted_witness :
    goLen okMsg.Content.Email < MaxMessageSize ∧
    StoreEvent okMsg [] = ([okRecord], none) := by
  refine ⟨by decide, ?_⟩
  rw [c3_small_event_inserted okMsg [] (by decide)]
  rfl

/-- C4: for every relay-message event whose body is 8192 bytes or longer,
StoreEvent leaves the table unchanged and returns a MessageTooLarge
failure; and (equivalently, as an invariant) a successful StoreEvent
preserves the property that every stored record has rfc822 shorter than
8192 bytes. -/
theorem c4_oversized_rejected :
    (∀ (msg : RelayMessage) (st : List MessageRecord),
        MaxMessageSize ≤ goLen msg.Content.Email →
        StoreEvent msg st =
          (st, some (.MessageTooLarge msg.From (goLen msg.Content.Email)))) ∧
    (∀ (msg : RelayMessage) (st st' : List MessageRecord),
        StoreEvent msg st = (st', none) →
        (∀ r ∈ st, goLen r.rfc822 < MaxMessageSize) →
        ∀ r ∈ st', goLen r.rfc822 < MaxMessageSize) := by
  constructor
  · intro msg st h
    unfold StoreEvent
    rw [if_pos h]
  · intro msg st st' hs hinv r hr
    unfold StoreEvent at hs
    by_cases h : MaxMessageSize ≤ goLen msg.Content.Email
    · rw [if_pos h] at hs
      exact absurd (congrArg (fun p => p.2) hs) (by simp)
    · rw [if_neg h] at hs
      rw [Prod.mk.injEq] at hs
      obtain ⟨h1, -⟩ := hs
      subst h1
      rcases List.mem_append.mp hr with h1 | h2
      · exact hinv r h1
      · rw [List.mem_singleton] at h2
        subst h2
        exact Nat.lt_of_not_le h

/-- Witness for C4: the 8192-byte event is rejected with the table left
empty, and the invariant instance holds for a concrete successful store. -/
theorem c4_oversized_rejected_witness :
    StoreEvent bigMsg [] = ([], some (.MessageTooLarge "a@x.com" MaxMessageSize)) ∧
    (∀ r ∈ [okRecord], goLen r.rfc822 < MaxMessageSize) := by
  constructor
  · have hlen : goLen bigMsg.Content.Email = MaxMessageSize := goLen_bigEmail
    have h := c4_oversized_rejected.1 bigMsg [] (Nat.le_of_eq hlen.symm)
    rw [h, hlen]
    rfl
  · exact c4_oversized_rejected.2 okMsg [] [okRecord] (by decide) (by simp)

/-- C9: an array element is decoded (and possibly stored) only if its raw
text matches the anchored relayMsg probe — optional whitespace, an opening
brace, the literal key "msys", a colon, an opening brace, the literal key
"relay_message", a colon.  Any element whose text fails the probe — e.g.
one that contains relay_message under msys but serialized with another key
first — is skipped with a log line: no record is stored and no error is
returned. -/
theorem c9_shape_probe_gates_decode (ev : RawEvent) (st : List MessageRecord)
    (h : relayMsgMatch ev.text = false) :
    ParseEvent (some ev) st =
      (st, none, ["ParseEvent ignored event: " ++ ev.text]) := by
  simp [ParseEvent, h]

/-- Witness for C9: zzzEvent decodes to an object that does contain
msys.relay_message, but its serialization puts the key "zzz" first, so the
probe fails and the element is skipped. -/
theorem c9_shape_probe_gates_decode_witness :
    relayMsgMatch zzzEvent.text = false ∧
    lookupKey ((zzzEvent.decoded.toOption).getD []) "msys" =
      some [("relay_message", okMsg)] ∧
    ParseEvent (some zzzEvent) [] =
      ([], none, ["ParseEvent ignored event: " ++ zzzEvent.text]) :=
  ⟨by decide, by decide, c9_shape_probe_gates_decode zzzEvent [] (by decide)⟩

/-- Processing a list of events none of which matches the relay-message
shape leaves the table unchanged and returns a nil error. -/
theorem processEvents_noRelay (events : List (Option RawEvent)) :
    ∀ st : List MessageRecord, noRelayShape events = true →
      prState (processEvents events st) = st ∧
      prErr (processEvents events st) = none := by
  induction events with
  | nil => intro st _; exact ⟨rfl, rfl⟩
  | cons e es ih =>
    intro st h
    rw [noRelayShape, List.all_cons, Bool.and_eq_true] at h
    obtain ⟨he, hes⟩ := h
    rcases e with _ | x
    · have := ih st hes
      simpa [processEvents, ParseEvent, prState, prErr] using this
    · have hm : relayMsgMatch x.text = false := by
        simpa using he
      have := ih st hes
      simp only [processEvents, ParseEvent, hm, Bool.false_eq_true, if_false]
      simpa [prState, prErr] using this

/-- The table state and error result of the request loop do not depend on
the request index (it only feeds the log lines). -/
theorem processReqsFrom_index_irrel (rs : List Request) :
    ∀ (i j : Nat) (st : List MessageRecord),
      prState (processReqsFrom i rs st) = prState (processReqsFrom j rs st) ∧
      prErr (processReqsFrom i rs st) = prErr (processReqsFrom j rs st) := by
  induction rs with
  | nil => intro i j st; exact ⟨rfl, rfl⟩
  | cons r rs ih =>
    intro i j st
    rcases hp : r.parsed with u | events
    · have := ih (i + 1) (j + 1) st
      simpa [processReqsFrom, hp, prState, prErr] using this
    · rcases hpe : processEvents events st with ⟨st1, e1, lg1⟩
      rcases e1 with _ | err
      · have := ih (i + 1) (j + 1) st1
        simpa [processReqsFrom, hp, hpe, prState, prErr] using this
      · simp [processReqsFrom, hp, hpe, prState, prErr]

/-- C5: for every raw request whose payload parses as a JSON array none of
whose elements matches the relay-message shape, ProcessRequests on that
request succeeds (nil error) and stores no record. -/
theorem c5_no_shape_no_store (r : Request) (events : List (Option RawEvent))
    (st : List MessageRecord) (hr : r.parsed = .ok events)
    (h : noRelayShape events = true) :
    prState (ProcessRequests [r] st) = st ∧
    prErr (ProcessRequests [r] st) = none := by
  obtain ⟨h1, h2⟩ := processEvents_noRelay events st h
  rcases hpe : processEvents events st with ⟨st1, e1, lg1⟩
  rw [hpe] at h1 h2
  simp [prState] at h1
  simp [prErr] at h2
  subst h1; subst h2
  simp [ProcessRequests, processReqsFrom, hr, hpe, prState, prErr]

/-- Witness for C5 at a concrete one-element array of a different event
type. -/
theorem c5_no_shape_no_store_witness :
    prState (ProcessRequests [reqOther] []) = [] ∧
    prErr (ProcessRequests [reqOther] []) = none :=
  c5_no_shape_no_store reqOther [some otherEvent] [] rfl (by decide)

/-- C6: a raw request whose payload does not parse as a JSON array is
logged and skipped: it stores nothing and changes nothing about the error
result — the batch continues with the remaining requests — and on its own
such a request yields a success with the parse-failure log line. -/
theorem c6_bad_json_skipped (r : Request) (rs : List Request)
    (st : List MessageRecord) (h : r.parsed = .error ()) :
    prState (ProcessRequests (r :: rs) st) = prState (ProcessRequests rs st) ∧
    prErr (ProcessRequests (r :: rs) st) = prErr (ProcessRequests rs st) ∧
    ProcessRequests [r] st =
      (st, none, ["ProcessRequests called with 1 requests",
                  "ProcessRequests failed to parse JSON:\n" ++ r.Data]) := by
  obtain ⟨hs, he⟩ := processReqsFrom_index_irrel rs 1 0 st
  refine ⟨?_, ?_, ?_⟩
  · simpa [ProcessRequests, processReqsFrom, h, prState] using hs
  · simpa [ProcessRequests, processReqsFrom, h, prErr] using he
  · simp [ProcessRequests, processReqsFrom, h]
    rfl

/-- Witness for C6 at a concrete malformed request followed by a good one. -/
theorem c6_bad_json_skipped_witness :
    prState (ProcessRequests [reqBad, reqOk] []) =
      prState (ProcessRequests [reqOk] []) ∧
    prErr (ProcessRequests [reqBad, reqOk] []) =
      prErr (ProcessRequests [reqOk] []) ∧
    ProcessRequests [reqBad] [] =
      ([], none, ["ProcessRequests called with 1 requests",
                  "ProcessRequests failed to parse JSON:\nbogus"]) :=
  c6_bad_json_skipped reqBad [reqOk] [] rfl

/-- C1 counterexample: in the batch [reqBig, reqOk] the store failure
occurs while processing the raw request at index 0, and ProcessRequests
returns at once: the raw request at index 1 is never processed (the final
table is empty), although processing it alone stores its record. -/
theorem c1_counterexample :
    prErr (ProcessRequests [reqBig, reqOk] []) =
      some (.MessageTooLarge "a@x.com" MaxMessageSize) ∧
    prState (ProcessRequests [reqBig, reqOk] []) = [] ∧
    prState (ProcessRequests [reqOk] []) = [okRecord] := by
  have hb := parseEvent_bigEvent []
  refine ⟨?_, ?_, by decide⟩
  · simp [ProcessRequests, processReqsFrom, processEvents, reqBig, hb, prErr]
  · simp [ProcessRequests, processReqsFrom, processEvents, reqBig, hb, prState]

/-- C1 (amended): if storing one decoded event of a raw request fails, the
remaining elements of that raw request are not processed and ProcessRequests
returns the error immediately — the raw requests after the failing one are
not attempted in this run (the batch-drain collaborator sees the error and
decides about a later retry). -/
theorem c1_store_failure_aborts_run (r : Request) (rs : List Request)
    (st : List MessageRecord) (events : List (Option RawEvent)) (e : StoreErr)
    (hr : r.parsed = .ok events)
    (he : prErr (processEvents events st) = some e) :
    prErr (ProcessRequests (r :: rs) st) = some e ∧
    prState (ProcessRequests (r :: rs) st) = prState (processEvents events st) := by
  rcases hpe : processEvents events st with ⟨st1, e1, lg1⟩
  rw [hpe] at he
  simp [prErr] at he
  subst he
  constructor
  · simp [ProcessRequests, processReqsFrom, hr, hpe, prErr]
  · simp [ProcessRequests, processReqsFrom, hr, hpe, prState]

/-- Witness for C1 (amended) at the concrete failing batch. -/
theorem c1_store_failure_aborts_run_witness :
    prErr (ProcessRequests [reqBig, reqOk] []) =
      some (.MessageTooLarge "a@x.com" MaxMessageSize) ∧
    prState (ProcessRequests [reqBig, reqOk] []) =
      prState (processEvents [some bigEvent] []) :=
  c1_store_failure_aborts_run reqBig [reqOk] [] [some bigEvent]
    (.MessageTooLarge "a@x.com" MaxMessageSize) rfl
    (by simp [processEvents, parseEvent_bigEvent, prErr])

/-- The scan loop fails exactly when some row fails to scan. -/
theorem scanRows_eq_none_iff (scans : List (Except Unit SummaryResponse)) :
    scanRows scans = none ↔
      scans.any (fun s => s.isOk == false) = true := by
  induction scans with
  | nil => simp [scanRows]
  | cons sc rest ih =>
    rcases sc with u | s
    · rw [List.any_cons, show ((Except.error u :
          Except Unit SummaryResponse).isOk == false) = true from rfl,
        Bool.true_or]
      simp [scanRows]
    · rw [List.any_cons, show ((Except.ok s :
          Except Unit SummaryResponse).isOk == false) = false from rfl,
        Bool.false_or, ← ih]
      rcases h : scanRows rest with _ | l
      · simp [scanRows, h]
      · simp [scanRows, h]

/-- A value Set into the cache is returned by Get for the same key at any
time within the TTL. -/
theorem cacheGet_cacheSet (c : Cache) (t t2 : Nat) (k v : String)
    (h : t2 ≤ t + defaultTTL) :
    cacheGet (cacheSet c t k v) t2 k = some v := by
  simp [cacheGet, cacheSet, List.find?, h]

/-- C2 counterexample: with an empty cache and an aggregate query matching
zero rows, the handler's body is the empty JSON object (the results key is
absent), not the claimed empty-results envelope. -/
theorem c2_counterexample :
    (SummaryHandler ⟨[]⟩ 0 "bob" (.rows [] false)).body = "\x7b\x7d" ∧
    (SummaryHandler ⟨[]⟩ 0 "bob" (.rows [] false)).body ≠
      "\x7b\"results\":[]\x7d" := by
  constructor
  · rfl
  · decide

/-- C2 (amended): a summary lookup whose aggregate query matches zero rows
returns status 200 with body the empty JSON object (json.Marshal of the
never-written map — no results key), and that body is cached exactly the
way non-empty results are (same Set call, same default TTL). -/
theorem c2_empty_rows_envelope (c : Cache) (now : Nat) (lp : String)
    (h : cacheGet c now lp = none) :
    SummaryHandler c now lp (.rows [] false) =
      ⟨200, marshalRes [], cacheSet c now lp (marshalRes []), true⟩ ∧
    marshalRes [] = "\x7b\x7d" := by
  refine ⟨?_, rfl⟩
  simp [SummaryHandler, h, scanRows]

/-- Witness for C2 (amended) at the empty cache. -/
theorem c2_empty_rows_envelope_witness :
    SummaryHandler ⟨[]⟩ 0 "bob" (.rows [] false) =
      ⟨200, marshalRes [], cacheSet ⟨[]⟩ 0 "bob" (marshalRes []), true⟩ ∧
    marshalRes [] = "\x7b\x7d" :=
  c2_empty_rows_envelope ⟨[]⟩ 0 "bob" rfl

/-- C7: on a cache miss, if the aggregate query, a row scan, or the final
row-iteration check fails, the handler answers 500 and leaves the cache
exactly as it was, so any later lookup for the same localpart (with the
cache still in that state and still missing) issues the query again. -/
theorem c7_db_failure_not_cached (c : Cache) (now : Nat) (lp : String)
    (db : RowsOutcome) (hmiss : cacheGet c now lp = none)
    (hfail : dbFails db = true) :
    (SummaryHandler c now lp db).status = 500 ∧
    (SummaryHandler c now lp db).cache = c ∧
    ∀ db2, (SummaryHandler (SummaryHandler c now lp db).cache now lp db2).queried
      = true := by
  have hmain : (SummaryHandler c now lp db).status = 500 ∧
      (SummaryHandler c now lp db).cache = c := by
    rcases db with _ | ⟨scans, finalErr⟩
    · simp [SummaryHandler, hmiss, httpError]
    · rw [dbFails, Bool.or_eq_true] at hfail
      rcases hsr : scanRows scans with _ | l
      · simp [SummaryHandler, hmiss, hsr, httpError]
      · have hany : ¬ (scans.any (fun s => s.isOk == false) = true) := by
          intro ha
          rw [← scanRows_eq_none_iff] at ha
          rw [hsr] at ha
          cases ha
        have hfe : finalErr = true := by
          rcases hfail with ha | hf
          · exact absurd ha hany
          · exact hf
        subst hfe
        simp [SummaryHandler, hmiss, hsr, httpError]
  refine ⟨hmain.1, hmain.2, ?_⟩
  intro db2
  rw [hmain.2]
  rcases db2 with _ | ⟨scans2, finalErr2⟩
  · simp [SummaryHandler, hmiss, httpError]
  · rcases hsr2 : scanRows scans2 with _ | l2
    · simp [SummaryHandler, hmiss, hsr2, httpError]
    · rcases finalErr2 with _ | _
      · simp [SummaryHandler, hmiss, hsr2, httpError]
      · simp [SummaryHandler, hmiss, hsr2, httpError]

/-- Witness for C7 at a concrete failing query against the empty cache. -/
theorem c7_db_failure_not_cached_witness :
    (SummaryHandler ⟨[]⟩ 0 "bob" .queryErr).status = 500 ∧
    (SummaryHandler ⟨[]⟩ 0 "bob" .queryErr).cache = (⟨[]⟩ : Cache) ∧
    ∀ db2, (SummaryHandler (SummaryHandler ⟨[]⟩ 0 "bob" .queryErr).cache 0 "bob" db2).queried
      = true :=
  c7_db_failure_not_cached ⟨[]⟩ 0 "bob" .queryErr rfl rfl

/-- C8: a lookup that finds an unexpired cache entry returns exactly the
stored bytes with no database query and no cache change; and a lookup
within the TTL right after a successful computation hits this path,
returning the byte-identical body without querying. -/
theorem c8_cache_hit_verbatim :
    (∀ (c : Cache) (t : Nat) (lp : String) (db : RowsOutcome) (b : String),
        cacheGet c t lp = some b →
        SummaryHandler c t lp db = ⟨200, b, c, false⟩) ∧
    (∀ (c : Cache) (t t2 : Nat) (lp : String)
        (scans : List (Except Unit SummaryResponse)) (db2 : RowsOutcome),
        cacheGet c t lp = none →
        dbFails (.rows scans false) = false →
        t2 ≤ t + defaultTTL →
        SummaryHandler (SummaryHandler c t lp (.rows scans false)).cache t2 lp db2 =
          ⟨200, (SummaryHandler c t lp (.rows scans false)).body,
           (SummaryHandler c t lp (.rows scans false)).cache, false⟩) := by
  have hit : ∀ (c : Cache) (t : Nat) (lp : String) (db : RowsOutcome) (b : String),
      cacheGet c t lp = some b → SummaryHandler c t lp db = ⟨200, b, c, false⟩ := by
    intro c t lp db b h
    simp [SummaryHandler, h]
  refine ⟨hit, ?_⟩
  intro c t t2 lp scans db2 hmiss hok httl
  rw [dbFails, Bool.or_false] at hok
  rcases hsr : scanRows scans with _ | l
  · have hany := (scanRows_eq_none_iff scans).mp hsr
    rw [hok] at hany
    exact Bool.noConfusion hany
  · have h1 : SummaryHandler c t lp (.rows scans false) =
        ⟨200, marshalRes l, cacheSet c t lp (marshalRes l), true⟩ := by
      simp [SummaryHandler, hmiss, hsr]
    rw [h1]
    exact hit (cacheSet c t lp (marshalRes l)) t2 lp db2 (marshalRes l)
      (cacheGet_cacheSet c t t2 lp (marshalRes l) httl)

/-- Witness for C8: both conjuncts applied at concrete inputs — a direct
hit on a prefilled cache, and a miss-then-hit round trip within the TTL. -/
theorem c8_cache_hit_verbatim_witness :
    SummaryHandler ⟨[("bob", "payload", 1)]⟩ 1 "bob" .queryErr =
      ⟨200, "payload", ⟨[("bob", "payload", 1)]⟩, false⟩ ∧
    SummaryHandler
        (SummaryHandler ⟨[]⟩ 0 "bob" (.rows [.ok ⟨"Hi", 2⟩] false)).cache 1 "bob" .queryErr =
      ⟨200, (SummaryHandler ⟨[]⟩ 0 "bob" (.rows [.ok ⟨"Hi", 2⟩] false)).body,
       (SummaryHandler ⟨[]⟩ 0 "bob" (.rows [.ok ⟨"Hi", 2⟩] false)).cache, false⟩ :=
  ⟨c8_cache_hit_verbatim.1 ⟨[("bob", "payload", 1)]⟩ 1 "bob" .queryErr "payload" rfl,
   c8_cache_hit_verbatim.2 ⟨[]⟩ 0 1 "bob" [.ok ⟨"Hi", 2⟩] .queryErr rfl rfl
     (by decide)⟩

end RelayStash
